import Mathlib

/-!
Verification of the finance_app repository (src/app.py): a personal finance
tracker over a SQLite store, with password-hash authentication, per-user
category/expense/budget CRUD, and month-windowed dashboard aggregation.

The SQLite database is shallowly embedded as a `DB` structure whose tables are
lists of rows, in insertion order (SQLite returns rows of these small tables in
rowid order, which is insertion order; `fetchone` after a `WHERE username = ?`
query is the first matching row).  SQL REAL values are modelled as exact
rationals `Rat`; every numeric comparison and division appearing in the claims
is exact on the decimal constants involved.  `hashlib.sha256(...).hexdigest()`
is modelled as an abstract function parameter `hash : String → String`: the
program only ever compares hash values for equality, and no claim depends on
anything else about SHA-256.
-/

namespace FinanceApp

/-- Row of the `expenses` table (`id INTEGER PRIMARY KEY AUTOINCREMENT,
username, date TEXT, category, amount REAL, description`). -/
structure Expense where
  id : Nat
  username : String
  date : String
  category : String
  amount : Rat
  description : String
deriving DecidableEq, Repr

/-- Row of the `budget` table (`username, category, monthly_limit REAL`,
primary key `(username, category)`). -/
structure BudgetRow where
  username : String
  category : String
  monthly_limit : Rat
deriving DecidableEq, Repr

/-- The whole SQLite database: `users` (username, password hash) with primary
key username; `categories` rows `(username, category)` with composite primary
key; `expenses`; `budget`.  `nextId` models the AUTOINCREMENT counter for
`expenses.id`: SQLite hands out ids strictly larger than any id ever used. -/
structure DB where
  users : List (String × String)
  categories : List (String × String)
  expenses : List Expense
  budget : List BudgetRow
  nextId : Nat
deriving DecidableEq, Repr

/-- The empty database produced by `init_db` on a fresh file. -/
def emptyDB : DB := { users := [], categories := [], expenses := [], budget := [], nextId := 1 }

/-- `DEFAULT_CATEGORIES` from app.py line 12. -/
def DEFAULT_CATEGORIES : List String := ["Food", "Transport", "Health", "Entertainment", "Other"]

/-- Python's `str.strip()` on the character list: drop leading and trailing
whitespace. -/
def stripChars (l : List Char) : List Char :=
  ((l.dropWhile Char.isWhitespace).reverse.dropWhile Char.isWhitespace).reverse

/-- Python's `str.strip()`: the string with surrounding whitespace removed. -/
def strip (s : String) : String := ⟨stripChars s.data⟩

/-- `user_exists` (app.py 86-92): `SELECT 1 FROM users WHERE username=?`
returns a row iff some user row has this username. -/
def user_exists (db : DB) (username : String) : Bool :=
  db.users.any (fun row => row.1 == username)

/-- `signup_user` (app.py 61-74), parameterized by the password hash function.
`INSERT INTO users` raises `IntegrityError` when the username (primary key) is
already present; the exception path commits nothing, so the database is
unchanged and the function returns false.  Otherwise the user row is inserted
with `hash_password(password)`, each default category is inserted with
`INSERT OR IGNORE` (skipped when the `(username, category)` key already
exists), and the function returns true. -/
def signup_user (hash : String → String) (db : DB) (username password : String) : DB × Bool :=
  if db.users.any (fun row => row.1 == username) then
    (db, false)
  else
    let db1 : DB := { db with users := db.users ++ [(username, hash password)] }
    let db2 : DB := DEFAULT_CATEGORIES.foldl (fun d cat =>
      if d.categories.any (fun c => c.1 == username && c.2 == cat) then d
      else { d with categories := d.categories ++ [(username, cat)] }) db1
    (db2, true)

/-- `login_user` (app.py 76-84): fetch the password hash stored for
`username`; return true iff a row exists and its stored hash equals
`hash_password(password)`. -/
def login_user (hash : String → String) (db : DB) (username password : String) : Bool :=
  match db.users.find? (fun row => row.1 == username) with
  | some row => row.2 == hash password
  | none => false

/-- `add_category` (app.py 103-115).  Python's `if not category` fires only on
the empty string (a whitespace-only string is truthy); the insert uses
`category.strip()` and raises `IntegrityError` — returning false — exactly when
the composite key `(username, category.strip())` is already present. -/
def add_category (db : DB) (username category : String) : DB × Bool :=
  if category = "" then (db, false)
  else if db.categories.any (fun c => c.1 == username && c.2 == strip category) then (db, false)
  else ({ db with categories := db.categories ++ [(username, strip category)] }, true)

/-- `delete_category` (app.py 117-127): count expenses and budget rows
referencing `(username, category)`; delete the category row only when both
counts are zero, otherwise change nothing. -/
def delete_category (db : DB) (username category : String) : DB :=
  let exp_count := (db.expenses.filter (fun e => e.username == username && e.category == category)).length
  let bud_count := (db.budget.filter (fun b => b.username == username && b.category == category)).length
  if exp_count = 0 && bud_count = 0 then
    { db with categories := db.categories.filter (fun c => !(c.1 == username && c.2 == category)) }
  else db

/-- `add_expense` (app.py 132-140): inserts a row with the date string exactly
as given, `float(amount)` (a numeric coercion, modelled as the identity on the
exact rational value — note it imposes no sign condition), `description.strip()`,
and a fresh AUTOINCREMENT id. -/
def add_expense (db : DB) (username date_str category : String) (amount : Rat)
    (description : String) : DB :=
  { db with
    expenses := db.expenses ++
      [{ id := db.nextId, username := username, date := date_str, category := category,
         amount := amount, description := strip description }],
    nextId := db.nextId + 1 }

/-- `get_expenses` (app.py 142-149): all expense rows of this user. -/
def get_expenses (db : DB) (username : String) : List Expense :=
  db.expenses.filter (fun e => e.username == username)

/-- `delete_expense` (app.py 151-156): unconditional delete by id (no
ownership check at this layer). -/
def delete_expense (db : DB) (expense_id : Nat) : DB :=
  { db with expenses := db.expenses.filter (fun e => !(e.id == expense_id)) }

/-- `set_budget` (app.py 161-169): `INSERT OR REPLACE` keyed on
`(username, category)` — any prior row for that key is replaced. -/
def set_budget (db : DB) (username category : String) (limit : Rat) : DB :=
  { db with budget :=
      db.budget.filter (fun b => !(b.username == username && b.category == category)) ++
      [{ username := username, category := category, monthly_limit := limit }] }

/-- `get_budget` (app.py 171-178): all budget rows of this user. -/
def get_budget (db : DB) (username : String) : List BudgetRow :=
  db.budget.filter (fun b => b.username == username)

/-- `current_month_key` (app.py 183-184): `dt.strftime('%Y-%m')`.  Dates are
carried as their stored zero-padded ISO `YYYY-MM-DD` strings, on which the
month key is the first seven characters. -/
def current_month_key (date : String) : String := date.take 7

/-- `month_filter` (app.py 186-192): keep the expenses whose month key equals
the reference month key (calendar-month semantics). -/
def month_filter (es : List Expense) (key : String) : List Expense :=
  es.filter (fun e => current_month_key e.date == key)

/-- Sum of the `amount` column, as in `df['amount'].sum()` — 0 on an empty
frame. -/
def sumAmounts (es : List Expense) : Rat :=
  (es.map (fun e => e.amount)).sum

/-- The distinct calendar days occurring in an expense list: the group keys of
`groupby(month_expenses['date'].dt.date)`.  On the app's zero-padded ISO date
strings, parsing then taking `.date` is injective, so grouping by the parsed
calendar day coincides with grouping by the stored date string. -/
def distinctDates (es : List Expense) : List String :=
  (es.map (fun e => e.date)).dedup

/-- The per-calendar-day sums: the series
`groupby(month_expenses['date'].dt.date)['amount'].sum()`, one entry per
distinct day present. -/
def perDaySums (es : List Expense) : List Rat :=
  (distinctDates es).map (fun d => sumAmounts (es.filter (fun e => e.date == d)))

/-- `daily_avg` (app.py 274): the mean of the per-day sums
(`.mean()` of the grouped series = sum of the entries / number of entries),
and 0.0 when the month's expense frame is empty. -/
def dailyAverage (es : List Expense) : Rat :=
  if es.isEmpty then 0
  else (perDaySums es).sum / ((perDaySums es).length : Rat)

/-- One row of the dashboard's `merged` frame (app.py 282-284): a budget row
joined (left merge on category) with this month's spend for that category,
`fillna({'amount': 0.0})`, and `status = amount / monthly_limit`.  For
`monthly_limit = 0` pandas produces a non-finite status; such rows are skipped
before classification, and here `Rat` division gives `status = 0` — the value
is never consulted on those rows. -/
structure StatusRow where
  category : String
  monthly_limit : Rat
  amount : Rat
  status : Rat
deriving DecidableEq, Repr

/-- The dashboard's budget overview (app.py 282-284): one row per budget row,
in order, with `amount` = this month's spend in that category (0 when the left
merge finds no expenses) and `status = amount / monthly_limit`. -/
def budget_status (bud : List BudgetRow) (month_expenses : List Expense) : List StatusRow :=
  bud.map (fun b =>
    let spent := sumAmounts (month_expenses.filter (fun e => e.category == b.category))
    { category := b.category, monthly_limit := b.monthly_limit,
      amount := spent, status := spent / b.monthly_limit })

/-- The two alert kinds the dashboard can emit for a budget row. -/
inductive Alert where
  | over
  | near
deriving DecidableEq, Repr

/-- The classification loop body (app.py 285-291): rows with
`monthly_limit <= 0` are skipped entirely (`continue`); then `status > 1`
emits the over-budget warning, `elif status > 0.8` the near-limit notice, and
otherwise nothing. -/
def classify_row (r : StatusRow) : Option Alert :=
  if r.monthly_limit ≤ 0 then none
  else if r.status > 1 then some Alert.over
  else if r.status > 0.8 then some Alert.near
  else none

/-- Decimal digit list of a natural number, most significant digit first —
the text a numeric `id` cell carries in the CSV export. -/
def natToStrAux (n : Nat) : List Char :=
  if n < 10 then [Nat.digitChar n]
  else natToStrAux (n / 10) ++ [Nat.digitChar (n % 10)]
decreasing_by exact Nat.div_lt_self (by omega) (by omega)

/-- Decimal rendering of a natural number. -/
def natToStr (n : Nat) : String := ⟨natToStrAux n⟩

/-- Rendering of a REAL `amount` cell: sign, numerator, and denominator when
it is not 1.  (pandas prints a float decimal; for the export claims only the
shape of the text matters — it consists of digits, `-` and `/` only, and in
particular never contains a line break.) -/
def ratToStr (q : Rat) : String :=
  (if q < 0 then "-" else "") ++ natToStr q.num.natAbs ++
    (if q.den = 1 then "" else "/" ++ natToStr q.den)

/-- pandas `to_csv` default minimal quoting: a text cell is quoted iff it
contains a separator, a quote, or a line break. -/
def needsQuote (s : String) : Bool :=
  s.data.any (fun c => c == ',' || c == '"' || c == '\n' || c == '\r')

/-- Quote-escaping of one character inside a quoted cell: a double quote is
doubled, everything else is kept. -/
def escapeChar (c : Char) : List Char :=
  if c == '"' then ['"', '"'] else [c]

/-- One text cell of the CSV export, with pandas' default escaping. -/
def csvCell (s : String) : String :=
  if needsQuote s then ⟨'"' :: (s.data.flatMap escapeChar ++ ['"'])⟩ else s

/-- One data row of `df.to_csv(index=False)` (app.py 344): the five Expense
columns joined by commas. -/
def expense_row (e : Expense) : String :=
  natToStr e.id ++ "," ++ csvCell e.date ++ "," ++ csvCell e.category ++ "," ++
    ratToStr e.amount ++ "," ++ csvCell e.description

/-- The header row of the export: the Expense field names. -/
def csvHeader : String := "id,date,category,amount,description"

/-- The newline-terminated data rows, concatenated in order. -/
def rowsBlock : List Expense → String
  | [] => ""
  | e :: es => expense_row e ++ "\n" ++ rowsBlock es

/-- `df.to_csv(index=False)` (app.py 344): the header row then one
newline-terminated row per expense. -/
def to_csv (es : List Expense) : String :=
  csvHeader ++ "\n" ++ rowsBlock es

/-- The export path (app.py 342-345): the CSV of the user's expenses is
produced and offered for download only when the user's expense frame is
non-empty (`if not df.empty:`); with zero expenses nothing is produced. -/
def export_expenses (db : DB) (username : String) : Option String :=
  let df := get_expenses db username
  if df.isEmpty then none else some (to_csv df)

/-- Number of lines of a piece of text, counting newline-terminated lines
(every line of the export ends in a newline). -/
def lineCount (s : String) : Nat := s.data.count '\n'

/-- A sortable ISO calendar-date string `YYYY-MM-DD`: four digits, dash, two
digits, dash, two digits — the shape `d.strftime('%Y-%m-%d')` produces. -/
def isIsoDate (s : String) : Bool :=
  match s.data with
  | [y1, y2, y3, y4, s1, m1, m2, s2, d1, d2] =>
    y1.isDigit && y2.isDigit && y3.isDigit && y4.isDigit && s1 == '-' &&
      m1.isDigit && m2.isDigit && s2 == '-' && d1.isDigit && d2.isDigit
  | _ => false

/-- The store invariant for the AUTOINCREMENT counter: every expense id ever
handed out is below the next id SQLite will assign.  It holds of the fresh
store and is preserved by every operation. -/
def idsBelowNext (db : DB) : Prop :=
  ∀ e ∈ db.expenses, e.id < db.nextId

instance (db : DB) : Decidable (idsBelowNext db) := by
  unfold idsBelowNext
  infer_instance

/-! ## Helper lemmas -/

/-- Seeding the default categories during signup touches only the
`categories` table: the `users` table is left as it was. -/
theorem foldl_seed_users (cats : List String) (username : String) (d : DB) :
    (cats.foldl (fun d cat =>
      if d.categories.any (fun c => c.1 == username && c.2 == cat) then d
      else { d with categories := d.categories ++ [(username, cat)] }) d).users = d.users := by
  induction cats generalizing d with
  | nil => rfl
  | cons c cs ih =>
    simp only [List.foldl_cons]
    split
    · exact ih d
    · exact ih _

/-- `find?` returns the first element of the filtered list. -/
theorem find?_eq_head?_filter {α : Type} (p : α → Bool) (l : List α) :
    l.find? p = (l.filter p).head? := by
  induction l with
  | nil => rfl
  | cons a l ih =>
    cases h : p a
    · rw [List.find?_cons_of_neg _ (by simp [h]), List.filter_cons_of_neg (by simp [h]), ih]
    · rw [List.find?_cons_of_pos _ h, List.filter_cons_of_pos h, List.head?_cons]

/-! ## C7: signup followed by login -/

/-- C7.  If `username` is not yet taken, then after
`signup_user hash db username password` logging in with the same credentials
returns true, and logging in with any password whose hash differs from
`hash password` returns false. -/
theorem signup_then_login (hash : String → String) (db : DB) (username password : String)
    (h : user_exists db username = false) :
    login_user hash (signup_user hash db username password).1 username password = true ∧
    ∀ p2 : String, hash p2 ≠ hash password →
      login_user hash (signup_user hash db username password).1 username p2 = false := by
  have hany : db.users.any (fun row => row.1 == username) = false := h
  have hfind : db.users.find? (fun row => row.1 == username) = none := by
    rw [List.find?_eq_none]
    intro x hx
    have := List.any_eq_false.mp hany x hx
    simpa using this
  have husers : (signup_user hash db username password).1.users
      = db.users ++ [(username, hash password)] := by
    unfold signup_user
    rw [if_neg (by rw [hany]; exact Bool.false_ne_true)]
    exact foldl_seed_users DEFAULT_CATEGORIES username _
  have hfind2 : ((signup_user hash db username password).1.users).find?
      (fun row => row.1 == username) = some (username, hash password) := by
    rw [husers, List.find?_append, hfind]
    simp
  constructor
  · unfold login_user
    rw [hfind2]
    simp
  · intro p2 hp2
    unfold login_user
    rw [hfind2]
    simpa using fun hEq => hp2 hEq.symm

/-- Witness for C7 at a concrete store: signing the user up in the empty
database, the right password logs in and a wrong-hash password does not. -/
theorem signup_then_login_witness :
    login_user (fun s => s ++ "#h") (signup_user (fun s => s ++ "#h") emptyDB "alice" "pw").1
      "alice" "pw" = true ∧
    login_user (fun s => s ++ "#h") (signup_user (fun s => s ++ "#h") emptyDB "alice" "pw").1
      "alice" "wrong" = false := by
  have h := signup_then_login (fun s => s ++ "#h") emptyDB "alice" "pw" (by decide)
  exact ⟨h.1, h.2 "wrong" (by decide)⟩

/-! ## C8: signup with a taken username -/

/-- C8.  If a user row for `username` already exists (with any stored hash),
`signup_user` returns false and the entire database — in particular that
user's stored password hash — is unchanged. -/
theorem signup_taken_unchanged (hash : String → String) (db : DB)
    (username password h0 : String) (h : (username, h0) ∈ db.users) :
    signup_user hash db username password = (db, false) := by
  unfold signup_user
  rw [if_pos]
  exact List.any_eq_true.mpr ⟨(username, h0), h, by simp⟩

/-- Witness for C8: re-signing up "alice" against a store that already has an
"alice" row fails and leaves the store intact. -/
theorem signup_taken_unchanged_witness :
    signup_user (fun s => s ++ "#h")
      { emptyDB with users := [("alice", "pw#h")] } "alice" "other" =
      ({ emptyDB with users := [("alice", "pw#h")] }, false) :=
  signup_taken_unchanged (fun s => s ++ "#h") _ "alice" "other" "pw#h" (by simp)

/-! ## C10: login depends only on the stored row for the username -/

/-- C10.  `login_user` is a function of the queried user row only: two
database states whose `users` tables agree on the rows for `username` (same
rows, or none in both) give the same login verdict for every password,
whatever the other users, categories, expenses and budgets are. -/
theorem login_depends_only_on_user_row (hash : String → String) (db1 db2 : DB)
    (username : String)
    (h : db1.users.filter (fun row => row.1 == username)
       = db2.users.filter (fun row => row.1 == username)) :
    ∀ password : String,
      login_user hash db1 username password = login_user hash db2 username password := by
  intro password
  unfold login_user
  rw [find?_eq_head?_filter, find?_eq_head?_filter, h]

/-- Witness for C10: two stores that agree on the row for "alice" but differ
in everything else give the same login verdict. -/
theorem login_depends_only_on_user_row_witness :
    login_user (fun s => s ++ "#h")
      { emptyDB with users := [("alice", "pw#h")] } "alice" "pw" =
    login_user (fun s => s ++ "#h")
      { emptyDB with users := [("bob", "x"), ("alice", "pw#h")], expenses := [{ id := 1, username := "bob", date := "2024-01-01", category := "Food", amount := 5, description := "d" }] }
      "alice" "pw" :=
  login_depends_only_on_user_row (fun s => s ++ "#h") _ _ "alice" (by decide) "pw"

/-- The existence probe the category insert runs into: the table holds the
composite key `(u, t)` iff some row matches both columns. -/
theorem any_key_mem (l : List (String × String)) (u t : String) :
    l.any (fun c => c.1 == u && c.2 == t) = true ↔ (u, t) ∈ l := by
  rw [List.any_eq_true]
  constructor
  · rintro ⟨c, hc, hp⟩
    simp only [Bool.and_eq_true, beq_iff_eq] at hp
    obtain ⟨h1, h2⟩ := hp
    obtain ⟨c1, c2⟩ := c
    cases h1
    cases h2
    exact hc
  · intro hm
    exact ⟨(u, t), hm, by simp⟩

/-- Appending a fresh element to a duplicate-free list keeps it
duplicate-free. -/
theorem nodup_append_singleton {α : Type} {l : List α} {a : α}
    (h : l.Nodup) (ha : a ∉ l) : (l ++ [a]).Nodup := by
  rw [List.nodup_append_comm, List.singleton_append, List.nodup_cons]
  exact ⟨ha, h⟩

/-! ## C3: add_category input validation -/

/-- C3 counterexample.  The claim says a whitespace-only name is rejected, but
Python's `if not category` only fires on the empty string: on a fresh store,
`add_category` with the single-space name returns true and inserts the
stripped (empty) name — even though the name is non-empty, whitespace-only. -/
theorem add_category_blank_accepted :
    (add_category emptyDB "u" " ").2 = true ∧ " " ≠ "" ∧ strip " " = "" ∧
      (add_category emptyDB "u" " ").1.categories = [("u", "")] := by
  refine ⟨?_, by decide, by decide, ?_⟩ <;> rfl

/-- C3 as amended.  `add_category owner name` returns false when `name` is the
empty string, and when the composite key `(owner, strip name)` already exists;
otherwise it inserts the stripped name and returns true.  (A whitespace-only
name passes the emptiness guard and is inserted as the empty string.) -/
theorem add_category_correct (db : DB) (username category : String) :
    (category = "" → add_category db username category = (db, false)) ∧
    (category ≠ "" → (username, strip category) ∈ db.categories →
      add_category db username category = (db, false)) ∧
    (category ≠ "" → (username, strip category) ∉ db.categories →
      add_category db username category =
        ({ db with categories := db.categories ++ [(username, strip category)] }, true)) := by
  refine ⟨?_, ?_, ?_⟩
  · intro h
    unfold add_category
    rw [if_pos h]
  · intro h hm
    unfold add_category
    rw [if_neg h, if_pos ((any_key_mem _ _ _).mpr hm)]
  · intro h hm
    unfold add_category
    rw [if_neg h, if_neg (fun hc => hm ((any_key_mem _ _ _).mp hc))]

/-- Witness for the amended C3: on a fresh store, adding a padded name
inserts the trimmed name and succeeds. -/
theorem add_category_correct_witness :
    add_category emptyDB "u" " Gifts " =
      ({ emptyDB with categories := [("u", "Gifts")] }, true) := by
  have h := (add_category_correct emptyDB "u" " Gifts ").2.2 (by decide) (by decide)
  rw [h]
  decide

/-! ## C6: delete_category referential-integrity guard -/

/-- C6.  `delete_category owner name` leaves the whole store unchanged when
at least one expense or at least one budget row of that owner references the
name; when neither does, it removes exactly the `(owner, name)` category rows
and touches nothing else — never a partial delete. -/
theorem delete_category_guard (db : DB) (username category : String) :
    ((∃ e ∈ db.expenses, e.username = username ∧ e.category = category) ∨
     (∃ b ∈ db.budget, b.username = username ∧ b.category = category) →
      delete_category db username category = db) ∧
    ((∀ e ∈ db.expenses, ¬(e.username = username ∧ e.category = category)) →
     (∀ b ∈ db.budget, ¬(b.username = username ∧ b.category = category)) →
      delete_category db username category =
        { db with categories :=
            db.categories.filter (fun c => !(c.1 == username && c.2 == category)) } ∧
      (username, category) ∉ (delete_category db username category).categories) := by
  constructor
  · intro h
    unfold delete_category
    rw [if_neg]
    simp only [Bool.and_eq_true, decide_eq_true_eq, not_and]
    intro hexp
    rcases h with ⟨e, he, h1, h2⟩ | ⟨b, hb, h1, h2⟩
    · exfalso
      have : db.expenses.filter (fun e => e.username == username && e.category == category) = [] :=
        List.length_eq_zero.mp hexp
      have hmem : e ∈ db.expenses.filter
          (fun e => e.username == username && e.category == category) := by
        rw [List.mem_filter]
        exact ⟨he, by simp [h1, h2]⟩
      rw [this] at hmem
      exact List.not_mem_nil e hmem
    · intro hbud
      have : db.budget.filter (fun b => b.username == username && b.category == category) = [] :=
        List.length_eq_zero.mp hbud
      have hmem : b ∈ db.budget.filter
          (fun b => b.username == username && b.category == category) := by
        rw [List.mem_filter]
        exact ⟨hb, by simp [h1, h2]⟩
      rw [this] at hmem
      exact List.not_mem_nil b hmem
  · intro hexp hbud
    have he : db.expenses.filter (fun e => e.username == username && e.category == category) = [] := by
      rw [List.filter_eq_nil_iff]
      intro e he
      simpa using hexp e he
    have hb : db.budget.filter (fun b => b.username == username && b.category == category) = [] := by
      rw [List.filter_eq_nil_iff]
      intro b hbm
      simpa using hbud b hbm
    have hdel : delete_category db username category =
        { db with categories :=
            db.categories.filter (fun c => !(c.1 == username && c.2 == category)) } := by
      unfold delete_category
      rw [he, hb]
      simp
    refine ⟨hdel, ?_⟩
    rw [hdel]
    intro hmem
    have := (List.mem_filter.mp hmem).2
    simp at this

/-- Witness for C6, both branches at concrete stores: a category referenced by
an expense survives deletion; an unreferenced one is removed. -/
theorem delete_category_guard_witness :
    (delete_category
        { emptyDB with categories := [("u", "Food")], expenses := [{ id := 1, username := "u", date := "2024-01-01", category := "Food", amount := 5, description := "d" }] }
        "u" "Food" =
      { emptyDB with categories := [("u", "Food")], expenses := [{ id := 1, username := "u", date := "2024-01-01", category := "Food", amount := 5, description := "d" }] }) ∧
    ("u", "Food") ∉ (delete_category { emptyDB with categories := [("u", "Food")] } "u" "Food").categories := by
  constructor
  · exact (delete_category_guard _ "u" "Food").1
      (Or.inl ⟨{ id := 1, username := "u", date := "2024-01-01", category := "Food", amount := 5, description := "d" }, by simp, rfl, rfl⟩)
  · exact ((delete_category_guard { emptyDB with categories := [("u", "Food")] } "u" "Food").2
      (by intro e he; simp [emptyDB] at he) (by intro b hb; simp [emptyDB] at hb)).2

/-! ## C9: uniqueness of the (owner, name) category key is preserved -/

/-- Seeding the default categories during signup preserves a duplicate-free
`categories` table: each seed insert is guarded by an existence check
(`INSERT OR IGNORE`). -/
theorem foldl_seed_nodup (cats : List String) (username : String) (d : DB)
    (h : d.categories.Nodup) :
    (cats.foldl (fun d cat =>
      if d.categories.any (fun c => c.1 == username && c.2 == cat) then d
      else { d with categories := d.categories ++ [(username, cat)] }) d).categories.Nodup := by
  induction cats generalizing d with
  | nil => exact h
  | cons c cs ih =>
    simp only [List.foldl_cons]
    split
    · exact ih d h
    · refine ih _ (nodup_append_singleton h ?_)
      rename_i hany
      rw [Bool.not_eq_true] at hany
      intro hmem
      rw [← any_key_mem d.categories username c] at hmem
      rw [hany] at hmem
      exact Bool.false_ne_true hmem

/-- C9.  Every exposed operation preserves uniqueness of the composite key
`(owner, name)` in the category table (category rows are exactly those keys,
so key-uniqueness is `Nodup` of the table). -/
theorem category_key_unique_preserved (hash : String → String) (db : DB)
    (username password name date_str category description : String)
    (amount limit : Rat) (expense_id : Nat)
    (h : db.categories.Nodup) :
    (signup_user hash db username password).1.categories.Nodup ∧
    (add_category db username name).1.categories.Nodup ∧
    (delete_category db username name).categories.Nodup ∧
    (add_expense db username date_str category amount description).categories.Nodup ∧
    (delete_expense db expense_id).categories.Nodup ∧
    (set_budget db username category limit).categories.Nodup := by
  refine ⟨?_, ?_, ?_, ?_, ?_, ?_⟩
  · unfold signup_user
    split
    · exact h
    · exact foldl_seed_nodup DEFAULT_CATEGORIES username _ h
  · unfold add_category
    split
    · exact h
    · split
      · exact h
      · refine nodup_append_singleton h ?_
        rename_i hany
        rw [Bool.not_eq_true] at hany
        intro hmem
        rw [← any_key_mem db.categories username (strip name)] at hmem
        rw [hany] at hmem
        exact Bool.false_ne_true hmem
  · simp only [delete_category]
    split
    · exact h.filter _
    · exact h
  · exact h
  · exact h
  · exact h

/-- Witness for C9: a concrete store with a duplicate-free category table
keeps it duplicate-free across a signup and an insert. -/
theorem category_key_unique_preserved_witness :
    (signup_user (fun s => s ++ "#h") { emptyDB with categories := [("u", "Food")] }
        "u" "pw").1.categories.Nodup ∧
    (add_category { emptyDB with categories := [("u", "Food")] } "u" "Food").1.categories.Nodup := by
  have h := category_key_unique_preserved (fun s => s ++ "#h")
    { emptyDB with categories := [("u", "Food")] }
    "u" "pw" "Food" "2024-01-01" "Food" "d" 5 10 1 (by decide)
  exact ⟨h.1, h.2.1⟩

/-! ## C1: budget status and alert classification -/

/-- Pointwise sum splitting for list sums of rationals. -/
theorem list_sum_map_add {α : Type} (l : List α) (f g : α → Rat) :
    (l.map (fun x => f x + g x)).sum = (l.map f).sum + (l.map g).sum := by
  induction l with
  | nil => simp
  | cons a l ih =>
    simp only [List.map_cons, List.sum_cons, ih]
    ring

/-- Summing an indicator over a duplicate-free list containing the key picks
out the single contribution. -/
theorem sum_map_ite_eq (D : List String) (x : String) (a : Rat)
    (hD : D.Nodup) (hx : x ∈ D) :
    (D.map (fun d => if x = d then a else 0)).sum = a := by
  induction D with
  | nil => cases hx
  | cons d D ih =>
    rw [List.nodup_cons] at hD
    by_cases h : x = d
    · subst h
      have hz : ∀ y ∈ D.map (fun d => if x = d then a else 0), y = 0 := by
        intro y hy
        obtain ⟨d2, hd2, rfl⟩ := List.mem_map.mp hy
        rw [if_neg]
        intro he
        exact hD.1 (he ▸ hd2)
      simp [List.sum_eq_zero hz]
    · have hx2 : x ∈ D := by
        cases List.mem_cons.mp hx with
        | inl h2 => exact absurd h2 h
        | inr h2 => exact h2
      simp only [List.map_cons, List.sum_cons, if_neg h, ih hD.2 hx2, zero_add]

/-- The amount sum of a cons splits into the head's contribution and the
tail's. -/
theorem sumAmounts_filter_cons (e : Expense) (es : List Expense) (d : String) :
    sumAmounts ((e :: es).filter (fun x => x.date == d)) =
      (if e.date = d then e.amount else 0) + sumAmounts (es.filter (fun x => x.date == d)) := by
  by_cases h : e.date = d
  · simp [List.filter_cons, h, sumAmounts]
  · simp [List.filter_cons, h, sumAmounts]

/-- Partition of the amount total over any duplicate-free day list covering
the expenses: the per-day sums add up to the whole sum. -/
theorem sum_over_days (es : List Expense) : ∀ D : List String, D.Nodup →
    (∀ e ∈ es, e.date ∈ D) →
    (D.map (fun d => sumAmounts (es.filter (fun e => e.date == d)))).sum = sumAmounts es := by
  induction es with
  | nil =>
    intro D _ _
    have hz : ∀ y ∈ D.map (fun d => sumAmounts (List.filter (fun e => e.date == d) [])), y = 0 := by
      intro y hy
      obtain ⟨d, _, rfl⟩ := List.mem_map.mp hy
      rfl
    rw [List.sum_eq_zero hz]
    rfl
  | cons e es ih =>
    intro D hD hmem
    have h1 : D.map (fun d => sumAmounts ((e :: es).filter (fun x => x.date == d))) =
        D.map (fun d => (if e.date = d then e.amount else 0) +
          sumAmounts (es.filter (fun x => x.date == d))) :=
      List.map_congr_left (fun d _ => sumAmounts_filter_cons e es d)
    rw [h1, list_sum_map_add, sum_map_ite_eq D e.date e.amount hD (hmem e (by simp)),
      ih D hD (fun x hx => hmem x (by simp [hx]))]
    simp [sumAmounts]

/-- Case analysis of the alert classification for a row with a positive
limit: the three threshold bands are exactly the three outcomes. -/
theorem classify_row_pos (r : StatusRow) (hpos : 0 < r.monthly_limit) :
    (classify_row r = some Alert.over ↔ 1 < r.status) ∧
    (classify_row r = some Alert.near ↔ 0.8 < r.status ∧ r.status ≤ 1) ∧
    (classify_row r = none ↔ r.status ≤ 0.8) := by
  rw [classify_row, if_neg (not_le.mpr hpos)]
  by_cases h1 : 1 < r.status
  · rw [if_pos h1]
    exact ⟨⟨fun _ => h1, fun _ => rfl⟩,
      ⟨fun h => by simp at h, fun h2 => absurd h1 (not_lt.mpr h2.2)⟩,
      ⟨fun h => by simp at h, fun h => absurd h1 (not_lt.mpr (by linarith))⟩⟩
  · rw [if_neg h1]
    by_cases h2 : (0.8 : Rat) < r.status
    · rw [if_pos h2]
      exact ⟨⟨fun h => by simp at h, fun hgt => absurd hgt h1⟩,
        ⟨fun _ => ⟨h2, not_lt.mp h1⟩, fun _ => rfl⟩,
        ⟨fun h => by simp at h, fun hle => absurd h2 (not_lt.mpr hle)⟩⟩
    · rw [if_neg h2]
      exact ⟨⟨fun h => by simp at h, fun hgt => absurd hgt h1⟩,
        ⟨fun h => by simp at h, fun hc => absurd hc.1 h2⟩,
        ⟨fun _ => not_lt.mp h2, fun _ => rfl⟩⟩

/-- C1.  `budget_status` yields one row per budget row, carrying its category;
each row's spent amount is the sum of this month's expenses in that category
(0 when there are none); for a positive limit the ratio is spent / limit and
the classification is: over-budget iff ratio > 1, near-limit iff
0.8 < ratio ≤ 1, and no alert iff ratio ≤ 0.8; rows with limit ≤ 0 are never
classified. -/
theorem budget_status_correct (bud : List BudgetRow) (mes : List Expense) :
    (budget_status bud mes).map (fun r => r.category) = bud.map (fun b => b.category) ∧
    ∀ r ∈ budget_status bud mes,
      (r.amount = sumAmounts (mes.filter (fun e => e.category == r.category)) ∧
        (mes.filter (fun e => e.category == r.category) = [] → r.amount = 0)) ∧
      (r.monthly_limit ≤ 0 → classify_row r = none) ∧
      (0 < r.monthly_limit →
        r.status = r.amount / r.monthly_limit ∧
        (classify_row r = some Alert.over ↔ 1 < r.status) ∧
        (classify_row r = some Alert.near ↔ 0.8 < r.status ∧ r.status ≤ 1) ∧
        (classify_row r = none ↔ r.status ≤ 0.8)) := by
  constructor
  · rw [budget_status, List.map_map]
    rfl
  · intro r hr
    rw [budget_status] at hr
    obtain ⟨b, hb, rfl⟩ := List.mem_map.mp hr
    refine ⟨⟨rfl, ?_⟩, ?_, ?_⟩
    · intro hnil
      show sumAmounts (mes.filter (fun e => e.category == b.category)) = 0
      rw [hnil]
      rfl
    · intro hle
      rw [classify_row, if_pos hle]
    · intro hpos
      exact ⟨rfl, (classify_row_pos _ hpos).1, (classify_row_pos _ hpos).2.1,
        (classify_row_pos _ hpos).2.2⟩

/-- Witness for C1, on the spec's own example: budget Food with limit 100 and
month expenses totalling 150 for Food give ratio 150/100 and the over-budget
alert. -/
theorem budget_status_correct_witness :
    classify_row { category := "Food", monthly_limit := 100, amount := 150, status := 150 / 100 } =
      some Alert.over := by
  have hm : ({ category := "Food", monthly_limit := 100, amount := 150, status := 150 / 100 } : StatusRow) ∈
      budget_status [{ username := "u", category := "Food", monthly_limit := 100 }]
        [{ id := 1, username := "u", date := "2024-03-05", category := "Food", amount := 150, description := "d" }] := by
    simp [budget_status, sumAmounts]
  have h := ((budget_status_correct
      [{ username := "u", category := "Food", monthly_limit := 100 }]
      [{ id := 1, username := "u", date := "2024-03-05", category := "Food", amount := 150, description := "d" }]).2
      _ hm).2.2 (by norm_num)
  exact h.2.1.mpr (by norm_num)

/-! ## C2: daily average over active spending days -/

/-- C2.  `dailyAverage` is 0 on an empty list; on a non-empty list it is the
mean of the per-calendar-day sums taken over exactly the days that have at
least one expense: it equals the total spent divided by the number of such
days, the per-day sums add up to the total, and the day list is precisely the
days on which some expense exists (not all days elapsed in the month). -/
theorem dailyAverage_correct (es : List Expense) :
    (es = [] → dailyAverage es = 0) ∧
    (es ≠ [] →
      dailyAverage es = sumAmounts es / ((distinctDates es).length : Rat) ∧
      (perDaySums es).sum = sumAmounts es ∧
      (∀ d ∈ distinctDates es, ∃ e ∈ es, e.date = d) ∧
      (∀ e ∈ es, e.date ∈ distinctDates es)) := by
  constructor
  · intro h
    subst h
    rfl
  · intro h
    have hcov : ∀ e ∈ es, e.date ∈ distinctDates es := by
      intro e he
      exact List.mem_dedup.mpr (List.mem_map_of_mem (fun e => e.date) he)
    have hsum : (perDaySums es).sum = sumAmounts es :=
      sum_over_days es (distinctDates es) (List.nodup_dedup _) hcov
    refine ⟨?_, hsum, ?_, hcov⟩
    · rw [dailyAverage, if_neg (by simpa using h)]
      rw [hsum, perDaySums, List.length_map]
    · intro d hd
      obtain ⟨e, he, rfl⟩ := List.mem_map.mp (List.mem_dedup.mp hd)
      exact ⟨e, he, rfl⟩

/-- Witness for C2, on the spec's own example: 100 and 50 on one day and 30 on
another give a daily average of (150 + 30) / 2 = 90. -/
theorem dailyAverage_correct_witness :
    dailyAverage
      [{ id := 1, username := "u", date := "2024-03-01", category := "Food", amount := 100, description := "a" },
       { id := 2, username := "u", date := "2024-03-01", category := "Food", amount := 50, description := "b" },
       { id := 3, username := "u", date := "2024-03-02", category := "Food", amount := 30, description := "c" }] = 90 := by
  have h := (dailyAverage_correct
      [{ id := 1, username := "u", date := "2024-03-01", category := "Food", amount := 100, description := "a" },
       { id := 2, username := "u", date := "2024-03-01", category := "Food", amount := 50, description := "b" },
       { id := 3, username := "u", date := "2024-03-02", category := "Food", amount := 30, description := "c" }]).2
      (by simp)
  have hd : distinctDates
      [{ id := 1, username := "u", date := "2024-03-01", category := "Food", amount := 100, description := "a" },
       { id := 2, username := "u", date := "2024-03-01", category := "Food", amount := 50, description := "b" },
       { id := 3, username := "u", date := "2024-03-02", category := "Food", amount := 30, description := "c" }] =
      ["2024-03-01", "2024-03-02"] := by
    decide
  rw [h.1, hd]
  norm_num [sumAmounts]

/-! ## C4: what add_expense actually stores -/

/-- C4 counterexample.  `add_expense` itself validates nothing: called with a
negative amount and a non-ISO date string it stores them verbatim (only the
description is stripped and a fresh id assigned).  The claim's "positive
decimal amount" and "date in sortable ISO form" do not hold of every call. -/
theorem add_expense_unvalidated :
    (add_expense emptyDB "u" "not-a-date" "Food" (-5) " x ").expenses =
      [{ id := 1, username := "u", date := "not-a-date", category := "Food",
         amount := -5, description := "x" }] ∧
    ¬(0 < (-5 : Rat)) ∧ isIsoDate "not-a-date" = false := by
  refine ⟨rfl, by norm_num, rfl⟩

/-- C4 as amended.  `add_expense` appends exactly one row holding the amount
as given (the float coercion imposes no sign condition — positivity is
enforced only by the caller's input widget), the date string verbatim (ISO
`YYYY-MM-DD` only because the app's sole caller formats it that way), the
stripped description, and the store's next id — which is distinct from every
existing expense id; the id counter invariant is preserved. -/
theorem add_expense_correct (db : DB) (username date_str category description : String)
    (amount : Rat) (h : idsBelowNext db) :
    (add_expense db username date_str category amount description).expenses =
      db.expenses ++ [{ id := db.nextId, username := username, date := date_str, category := category, amount := amount, description := strip description }] ∧
    (∀ e ∈ db.expenses, e.id ≠ db.nextId) ∧
    idsBelowNext (add_expense db username date_str category amount description) := by
  refine ⟨rfl, fun e he => Nat.ne_of_lt (h e he), ?_⟩
  intro e he
  simp only [add_expense] at he ⊢
  rcases List.mem_append.mp he with h1 | h1
  · exact Nat.lt_succ_of_lt (h e h1)
  · rw [List.mem_singleton] at h1
    subst h1
    exact Nat.lt_succ_self _

/-- Witness for the amended C4 at a concrete store whose id counter is 2: the
new row gets id 2, distinct from the existing id 1. -/
theorem add_expense_correct_witness :
    (add_expense { emptyDB with expenses := [{ id := 1, username := "u", date := "2024-03-01", category := "Food", amount := 7, description := "old" }], nextId := 2 } "u" "2024-03-05" "Food" 5 " x ").expenses =
      [{ id := 1, username := "u", date := "2024-03-01", category := "Food", amount := 7, description := "old" }] ++
      [{ id := 2, username := "u", date := "2024-03-05", category := "Food", amount := 5, description := "x" }] ∧
    (∀ e ∈ ([{ id := 1, username := "u", date := "2024-03-01", category := "Food", amount := 7, description := "old" }] : List Expense), e.id ≠ 2) ∧
    idsBelowNext (add_expense { emptyDB with expenses := [{ id := 1, username := "u", date := "2024-03-01", category := "Food", amount := 7, description := "old" }], nextId := 2 } "u" "2024-03-05" "Food" 5 " x ") :=
  add_expense_correct
    { emptyDB with expenses := [{ id := 1, username := "u", date := "2024-03-01", category := "Food", amount := 7, description := "old" }], nextId := 2 }
    "u" "2024-03-05" "Food" " x " 5 (by decide)

/-! ## C5: export line counts -/

/-- Line counting distributes over concatenation. -/
theorem lineCount_append (a b : String) :
    lineCount (a ++ b) = lineCount a + lineCount b := by
  simp [lineCount, String.data_append, List.count_append]

/-- No decimal digit character is a line break. -/
theorem digitChar_ne_newline : ∀ m, m < 10 → Nat.digitChar m ≠ '\n' := by decide

/-- The decimal rendering of a natural number contains no line break. -/
theorem natToStrAux_ne_newline (n : Nat) : '\n' ∉ natToStrAux n := by
  induction n using Nat.strong_induction_on with
  | _ n ih =>
    rw [natToStrAux]
    split
    · intro hmem
      rw [List.mem_singleton] at hmem
      exact digitChar_ne_newline n (by assumption) hmem.symm
    · intro hmem
      rcases List.mem_append.mp hmem with h1 | h1
      · exact ih (n / 10) (Nat.div_lt_self (by omega) (by omega)) h1
      · rw [List.mem_singleton] at h1
        exact digitChar_ne_newline (n % 10) (Nat.mod_lt _ (by omega)) h1.symm

/-- A numeric cell spans no extra lines. -/
theorem lineCount_natToStr (n : Nat) : lineCount (natToStr n) = 0 :=
  List.count_eq_zero.mpr (natToStrAux_ne_newline n)

/-- An amount cell spans no extra lines. -/
theorem lineCount_ratToStr (q : Rat) : lineCount (ratToStr q) = 0 := by
  have h1 : lineCount (if q < 0 then "-" else "") = 0 := by
    split <;> rfl
  have h2 : lineCount (if q.den = 1 then "" else "/" ++ natToStr q.den) = 0 := by
    split
    · rfl
    · rw [lineCount_append, lineCount_natToStr]
      rfl
  rw [ratToStr, lineCount_append, lineCount_append, h1, h2, lineCount_natToStr]

/-- Escaping a character other than a line break produces no line break. -/
theorem escapeChar_ne_newline (c : Char) (hc : c ≠ '\n') : '\n' ∉ escapeChar c := by
  rw [escapeChar]
  split
  · decide
  · intro h
    rw [List.mem_singleton] at h
    exact hc h.symm

/-- A cell whose text has no line break renders (quoted or not) with no line
break. -/
theorem lineCount_csvCell (s : String) (hs : '\n' ∉ s.data) : lineCount (csvCell s) = 0 := by
  rw [csvCell]
  split
  · apply List.count_eq_zero.mpr
    intro hmem
    rcases List.mem_cons.mp hmem with h1 | h1
    · exact (by decide : ('\n' : Char) ≠ '"') h1
    · rcases List.mem_append.mp h1 with h2 | h2
      · obtain ⟨c, hcmem, hcin⟩ := List.mem_flatMap.mp h2
        exact escapeChar_ne_newline c (fun he => hs (he ▸ hcmem)) hcin
      · rw [List.mem_singleton] at h2
        exact (by decide : ('\n' : Char) ≠ '"') h2
  · exact List.count_eq_zero.mpr hs

/-- A data row whose text cells have no line breaks occupies exactly the one
line its terminating newline ends. -/
theorem lineCount_expense_row (e : Expense) (h1 : '\n' ∉ e.date.data)
    (h2 : '\n' ∉ e.category.data) (h3 : '\n' ∉ e.description.data) :
    lineCount (expense_row e) = 0 := by
  have hc : lineCount "," = 0 := rfl
  simp [expense_row, lineCount_append, lineCount_natToStr, lineCount_ratToStr,
    lineCount_csvCell _ h1, lineCount_csvCell _ h2, lineCount_csvCell _ h3, hc]

/-- The data block contributes exactly one line per expense. -/
theorem lineCount_rowsBlock (es : List Expense)
    (h : ∀ e ∈ es, '\n' ∉ e.date.data ∧ '\n' ∉ e.category.data ∧ '\n' ∉ e.description.data) :
    lineCount (rowsBlock es) = es.length := by
  induction es with
  | nil => rfl
  | cons e es ih =>
    rw [rowsBlock, lineCount_append, lineCount_append,
      lineCount_expense_row e (h e (by simp)).1 (h e (by simp)).2.1 (h e (by simp)).2.2,
      ih (fun x hx => h x (by simp [hx]))]
    have hn : lineCount "\n" = 1 := rfl
    rw [hn, List.length_cons]
    omega

/-- C5 counterexample.  With zero expenses the app produces no export at all
(the download button is rendered only when the expense frame is non-empty), so
no header-only one-line output exists. -/
theorem export_empty_no_output : export_expenses emptyDB "u" = none := rfl

/-- C5 as amended.  Export is offered only for a non-empty expense set; when
the owner's N ≥ 1 expenses have no line break in their text fields, the
export is the CSV whose line count is exactly N + 1: the header row plus one
row per expense. -/
theorem export_lines (db : DB) (username : String)
    (hne : get_expenses db username ≠ [])
    (hclean : ∀ e ∈ get_expenses db username,
      '\n' ∉ e.date.data ∧ '\n' ∉ e.category.data ∧ '\n' ∉ e.description.data) :
    export_expenses db username = some (to_csv (get_expenses db username)) ∧
    lineCount (to_csv (get_expenses db username)) = (get_expenses db username).length + 1 := by
  constructor
  · simp only [export_expenses]
    rw [if_neg (by simpa using hne)]
  · rw [to_csv, lineCount_append, lineCount_append, lineCount_rowsBlock _ hclean]
    have h0 : lineCount csvHeader = 0 := rfl
    have h1 : lineCount "\n" = 1 := rfl
    rw [h0, h1]
    omega

/-- Witness for the amended C5: one stored expense exports as a two-line
CSV. -/
theorem export_lines_witness :
    export_expenses { emptyDB with expenses := [{ id := 1, username := "u", date := "2024-03-05", category := "Food", amount := 5, description := "d" }] } "u" =
      some (to_csv (get_expenses { emptyDB with expenses := [{ id := 1, username := "u", date := "2024-03-05", category := "Food", amount := 5, description := "d" }] } "u")) ∧
    lineCount (to_csv (get_expenses { emptyDB with expenses := [{ id := 1, username := "u", date := "2024-03-05", category := "Food", amount := 5, description := "d" }] } "u")) = 2 := by
  have h := export_lines { emptyDB with expenses := [{ id := 1, username := "u", date := "2024-03-05", category := "Food", amount := 5, description := "d" }] } "u" (by decide) (by decide)
  refine ⟨h.1, ?_⟩
  rw [h.2]
  decide

end FinanceApp
